import Mathlib

/-!
Shallow embedding of the kiota-python sources under verification:

* `packages/abstractions/kiota_abstractions/utils.py` — the ISO-8601
  duration parser (`_ISO8601_DURATION_PATTERN` + `parseTimeDeltaFromIsoFormat`);
* `tests/validation/validation/models/item_body.py`,
  `.../o_data_errors/error_details.py`, `.../o_data_errors/o_data_error.py`
  — three generated Model Variants of the Parsable protocol.

Python failure values are embedded as `Except PyErr`; machine behaviour of
the standard library pieces the sources call (regular-expression fullmatch,
int conversion, the datetime.timedelta constructor) is embedded explicitly.
-/

/-- A raised Python exception, as far as the sources distinguish them:
ValueError (the FormatError of the spec) and TypeError (null-argument guards
and bad keyword arguments). -/
inductive PyErr where
  | valueError : String → PyErr
  | typeError : String → PyErr
deriving DecidableEq, Repr

/-! ## Duration parser (utils.py) -/

/-- The maximal leading run of ASCII digits of a character list, with the
rest: the behaviour of a greedy regex atom over digits. -/
def takeDigits : List Char → List Char × List Char
  | [] => ([], [])
  | c :: cs =>
    if c.isDigit then
      let p := takeDigits cs
      (c :: p.1, p.2)
    else ([], c :: cs)

/-- One optional unit group of the duration pattern, the regex fragment
written as (?:(\x5cd+)U)? in utils.py for a unit letter U: a non-empty digit
run followed by the unit letter captures the digits and consumes both;
otherwise the group matches nothing and consumes nothing. Greedy matching of
this fragment is deterministic: the digits, if any, are delimited by the
first non-digit, and the unit letter can be consumed by no later fragment. -/
def durGroup (unit : Char) (cs : List Char) : Option (List Char) × List Char :=
  let td := takeDigits cs
  if td.1 ≠ [] ∧ td.2.head? = some unit then (some td.1, td.2.tail) else (none, cs)

/-- The seven capture groups of _ISO8601_DURATION_PATTERN, each the captured
digit text (as match.groups() returns it) or none when the group is absent. -/
structure DurGroups where
  years : Option (List Char)
  months : Option (List Char)
  weeks : Option (List Char)
  days : Option (List Char)
  hours : Option (List Char)
  minutes : Option (List Char)
  seconds : Option (List Char)
deriving DecidableEq, Repr

/-- The time part of the pattern, (?:T(?:(\x5cd+)H)?(?:(\x5cd+)M)?(?:(\x5cd+)S)?)?
after its leading T: hours, minutes, seconds groups in order; the remainder
must be empty for a fullmatch. -/
def durTimeTail (cs : List Char) : Option (Option (List Char) × Option (List Char) × Option (List Char)) :=
  let gh := durGroup 'H' cs
  let gmi := durGroup 'M' gh.2
  let gsec := durGroup 'S' gmi.2
  if gsec.2 = [] then some (gh.1, gmi.1, gsec.1) else none

/-- The rest of the pattern after the date groups: either the remainder is
empty (the time part is absent and fullmatch ends), or it starts with T and
the time part must match with nothing left over; any other remainder fails
(fullmatch anchors both ends). -/
def durDateTail (gy gmo gw gd : Option (List Char)) (r4 : List Char) : Option DurGroups :=
  match r4 with
  | [] => some ⟨gy, gmo, gw, gd, none, none, none⟩
  | t :: r5 =>
    if t = 'T' then
      match durTimeTail r5 with
      | some hms => some ⟨gy, gmo, gw, gd, hms.1, hms.2.1, hms.2.2⟩
      | none => none
    else none

/-- _ISO8601_DURATION_PATTERN.fullmatch over the characters of the input: a
leading P, the four date groups Y, M, W, D in order, then the rest of the
pattern on the remainder. -/
def matchDuration (cs : List Char) : Option DurGroups :=
  match cs with
  | [] => none
  | p :: r0 =>
    if p = 'P' then
      let gy := durGroup 'Y' r0
      let gmo := durGroup 'M' gy.2
      let gw := durGroup 'W' gmo.2
      let gd := durGroup 'D' gw.2
      durDateTail gy.1 gmo.1 gw.1 gd.1 gd.2
    else none

/-- _ISO8601_DURATION_PATTERN.fullmatch on a Python string. -/
def iso8601DurationFullmatch (s : String) : Option DurGroups :=
  matchDuration s.data

/-- Python int() on a captured digit string: the denoted natural number. -/
def intOfDigits (ds : List Char) : Nat :=
  ds.foldl (fun a c => a * 10 + (c.toNat - '0'.toNat)) 0

/-- The expression int(g or 0) applied to a capture group: the captured
number, or 0 when the group is absent. -/
def intOrZero : Option (List Char) → Nat
  | some ds => intOfDigits ds
  | none => 0

/-- A datetime.timedelta value: the normalized (days, seconds, microseconds)
representation the Python standard library stores. -/
structure Timedelta where
  days : Int
  seconds : Nat
  microseconds : Nat
deriving DecidableEq, Repr

/-- The keyword parameters datetime.timedelta accepts. The constructor of the
Python standard library has exactly the signature
timedelta(days=0, seconds=0, microseconds=0, milliseconds=0, minutes=0,
hours=0, weeks=0); no other keyword exists. -/
def timedeltaAllowedKeywords : List String :=
  ["days", "seconds", "microseconds", "milliseconds", "minutes", "hours", "weeks"]

/-- A call to datetime.timedelta with keyword arguments: a keyword outside
the constructor signature raises TypeError (CPython rejects unexpected
keyword arguments before constructing anything); otherwise the value is
normalized to days, seconds and microseconds. -/
def timedeltaNew (kwargs : List (String × Int)) : Except PyErr Timedelta :=
  match kwargs.find? (fun kv => !(timedeltaAllowedKeywords.contains kv.1)) with
  | some kv => .error (.typeError (kv.1 ++ " is an invalid keyword argument for __new__()"))
  | none =>
    let get := fun (k : String) => (((kwargs.find? (fun kv => kv.1 == k)).map Prod.snd).getD 0)
    let totalMicro : Int :=
      (((get "weeks") * 7 + get "days") * 86400 + (get "hours") * 3600
        + (get "minutes") * 60 + get "seconds") * 1000000
        + (get "milliseconds") * 1000 + get "microseconds"
    .ok ⟨totalMicro.ediv 86400000000,
         ((totalMicro.emod 86400000000).ediv 1000000).toNat,
         (totalMicro.emod 1000000).toNat⟩

/-- The keyword-argument list parseTimeDeltaFromIsoFormat builds from the
seven capture groups: years=int(years or 0), months=int(months or 0),
weeks=..., days=..., hours=..., minutes=..., seconds=... in source order. -/
def timedeltaKwargsOfGroups (g : DurGroups) : List (String × Int) :=
  [("years", (intOrZero g.years : Int)),
   ("months", (intOrZero g.months : Int)),
   ("weeks", (intOrZero g.weeks : Int)),
   ("days", (intOrZero g.days : Int)),
   ("hours", (intOrZero g.hours : Int)),
   ("minutes", (intOrZero g.minutes : Int)),
   ("seconds", (intOrZero g.seconds : Int))]

/-- utils.parseTimeDeltaFromIsoFormat: fullmatch the duration pattern, raise
ValueError on no match, else unpack the groups and call
timedelta(years=..., months=..., weeks=..., days=..., hours=..., minutes=...,
seconds=...). -/
def parseTimeDeltaFromIsoFormat (duration_str : String) : Except PyErr Timedelta :=
  match iso8601DurationFullmatch duration_str with
  | none => .error (.valueError ("Invalid ISO 8601 duration string: " ++ duration_str))
  | some g => timedeltaNew (timedeltaKwargsOfGroups g)


/-! ## Parsable model protocol (validation models) -/

/-- Modelled from the spec: a decoded payload value, a closed sum over the
decoder primitive value kinds (string, number, boolean, null, nested mapping,
ordered sequence) as section 9 of the spec prescribes for the untyped
additional-data bag. The concrete node values live in the serialization
packages of this repository, which are not under src. -/
inductive JValue where
  | jstr : String → JValue
  | jnum : Int → JValue
  | jbool : Bool → JValue
  | jnull : JValue
  | jobj : List (String × JValue) → JValue
  | jarr : List JValue → JValue

/-- Modelled from the spec: the BodyType enum referenced by
ItemBody.content_type; its file (validation/models/body_type.py) is not under
src. An enum of the generated client, read and written by its underlying
string value. -/
inductive BodyType where
  | text
  | html

/-- Modelled from the spec: the underlying wire value of a BodyType member. -/
def BodyType.value : BodyType → String
  | .text => "text"
  | .html => "html"

/-- Modelled from the spec: the enum member whose underlying value is the
given string, when one exists. -/
def BodyType.ofValue (s : String) : Option BodyType :=
  if s = "text" then some .text
  else if s = "html" then some .html
  else none

/-- Modelled from the spec: the decoder node primitive read-string of
section 6 (ParseNode.get_str_value); the ParseNode implementations are not
under src. The string payload of a string node, none otherwise. -/
def JValue.get_str_value : JValue → Option String
  | .jstr s => some s
  | _ => none

/-- Modelled from the spec: the decoder node primitive read-enum-of-type
(ParseNode.get_enum_value for BodyType): the enum member denoted by a string
node, none otherwise. -/
def JValue.get_enum_value : JValue → Option BodyType
  | .jstr s => BodyType.ofValue s
  | _ => none

/-- Modelled from the spec: the MainError model
(validation/models/o_data_errors/main_error.py), which is not under src: the
nested error object of the ODataError envelope, with an optional message
field that ODataError.primary_message reads, and its own additional data. -/
structure MainError where
  additional_data : List (String × JValue) := []
  message : Option String := none

/-- One call a Model Variant makes on the SerializationWriter, recorded with
the writer primitive used and its arguments: the writer implementations are
external to the variants, so a serialize pass is embedded as the sequence of
writes it performs. -/
inductive WriteEvent where
  | write_str_value : String → Option String → WriteEvent
  | write_enum_value : String → Option BodyType → WriteEvent
  | write_object_value : String → Option MainError → WriteEvent
  | write_additional_data_value : List (String × JValue) → WriteEvent

/-- Python dict assignment d[k] = v on an insertion-ordered mapping: an
existing key keeps its position and gets the new value, a new key is
appended. -/
def setAdditional (m : List (String × JValue)) (k : String) (v : JValue) : List (String × JValue) :=
  if m.any (fun kv => kv.1 == k) then
    m.map (fun kv => if kv.1 == k then (k, v) else kv)
  else m ++ [(k, v)]

/-! ### ItemBody (item_body.py) -/

/-- ItemBody: additional_data plus the declared fields content (string) and
content_type (BodyType enum), all defaulting to empty/none as the dataclass
declares. -/
structure ItemBody where
  additional_data : List (String × JValue) := []
  content : Option String := none
  content_type : Option BodyType := none

/-- ItemBody.create_from_discriminator_value: TypeError when the parse node
is null, else a fresh zero-valued instance; nothing is read from the node. -/
def ItemBody.create_from_discriminator_value (parse_node : Option JValue) : Except PyErr ItemBody :=
  match parse_node with
  | none => .error (.typeError "parse_node cannot be null.")
  | some _ => .ok {}

/-- ItemBody.get_field_deserializers: the field map built per call. In the
source each entry is a closure mutating the captured instance by setattr;
following section 9 of the spec the closure is reframed as an explicit
state-passing operation on the instance. -/
def ItemBody.get_field_deserializers : List (String × (ItemBody → JValue → ItemBody)) :=
  [("content", fun self n => { self with content := n.get_str_value }),
   ("contentType", fun self n => { self with content_type := n.get_enum_value })]

/-- ItemBody.serialize: TypeError when the writer is null, else the three
writes of the source in order — write_str_value("content", ...),
write_enum_value("contentType", ...), write_additional_data_value(...) —
appended to the writes the writer has already received. -/
def ItemBody.serialize (self : ItemBody) (writer : Option (List WriteEvent)) : Except PyErr (List WriteEvent) :=
  match writer with
  | none => .error (.typeError "writer cannot be null.")
  | some w =>
    .ok (w ++ [.write_str_value "content" self.content,
               .write_enum_value "contentType" self.content_type,
               .write_additional_data_value self.additional_data])

/-! ### ErrorDetails (error_details.py) -/

/-- ErrorDetails: additional_data plus the declared string fields code,
message and target, all defaulting to empty/none as the dataclass declares. -/
structure ErrorDetails where
  additional_data : List (String × JValue) := []
  code : Option String := none
  message : Option String := none
  target : Option String := none

/-- ErrorDetails.create_from_discriminator_value: TypeError when the parse
node is null, else a fresh zero-valued instance. -/
def ErrorDetails.create_from_discriminator_value (parse_node : Option JValue) : Except PyErr ErrorDetails :=
  match parse_node with
  | none => .error (.typeError "parse_node cannot be null.")
  | some _ => .ok {}

/-- ErrorDetails.get_field_deserializers: code, message and target, each a
string field set from the node, reframed as state-passing as for ItemBody. -/
def ErrorDetails.get_field_deserializers : List (String × (ErrorDetails → JValue → ErrorDetails)) :=
  [("code", fun self n => { self with code := n.get_str_value }),
   ("message", fun self n => { self with message := n.get_str_value }),
   ("target", fun self n => { self with target := n.get_str_value })]

/-- ErrorDetails.serialize: TypeError on a null writer, else the four writes
of the source in order. -/
def ErrorDetails.serialize (self : ErrorDetails) (writer : Option (List WriteEvent)) : Except PyErr (List WriteEvent) :=
  match writer with
  | none => .error (.typeError "writer cannot be null.")
  | some w =>
    .ok (w ++ [.write_str_value "code" self.code,
               .write_str_value "message" self.message,
               .write_str_value "target" self.target,
               .write_additional_data_value self.additional_data])

/-! ### ODataError (o_data_error.py) -/

/-- ODataError: the error envelope, with additional_data and the declared
field error, an optional nested MainError. -/
structure ODataError where
  additional_data : List (String × JValue) := []
  error : Option MainError := none

/-- ODataError.create_from_discriminator_value: TypeError when the parse node
is null, else a fresh zero-valued instance. -/
def ODataError.create_from_discriminator_value (parse_node : Option JValue) : Except PyErr ODataError :=
  match parse_node with
  | none => .error (.typeError "parse_node cannot be null.")
  | some _ => .ok {}

/-- ODataError.serialize: TypeError on a null writer, else
write_object_value("error", ...) followed by the additional-data write. -/
def ODataError.serialize (self : ODataError) (writer : Option (List WriteEvent)) : Except PyErr (List WriteEvent) :=
  match writer with
  | none => .error (.typeError "writer cannot be null.")
  | some w =>
    .ok (w ++ [.write_object_value "error" self.error,
               .write_additional_data_value self.additional_data])

/-- ODataError.primary_message: the message of the nested error when the
error is present, with the empty string substituted for a missing message,
and the empty string when the error is absent. Every return statement of the
source returns a string, never None. -/
def ODataError.primary_message (self : ODataError) : Option String :=
  match self.error with
  | some e =>
    match e.message with
    | none => some ""
    | some m => some m
  | none => some ""

/-! ### Encoder and decoder drivers -/

/-- Modelled from the spec: the MainError writes performed by its own
serialize, needed only so that the encoder below is total on object writes. -/
def MainError.encodeEntries (e : MainError) : List (String × JValue) :=
  [("message", match e.message with | some s => .jstr s | none => .jnull)] ++ e.additional_data

/-- Modelled from the spec: the node a string value (or its absence) is
written as by the JSON-style encoder writer of section 6 — a None value is
written as a null node. -/
def optStrNode : Option String → JValue
  | some s => .jstr s
  | none => .jnull

/-- Modelled from the spec: the node an enum value (or its absence) is
written as — the underlying value as a string node, or null. -/
def optEnumNode : Option BodyType → JValue
  | some b => .jstr b.value
  | none => .jnull

/-- Modelled from the spec: the node a nested object (or its absence) is
written as — the object node of its own serialize pass, or null. -/
def optObjNode : Option MainError → JValue
  | some e => .jobj e.encodeEntries
  | none => .jnull

/-- Modelled from the spec: the JSON-style encoder writer primitive of
section 6 realizing one recorded write as payload entries; the
additional-data mapping is emitted verbatim. -/
def writeEventEntries : WriteEvent → List (String × JValue)
  | .write_str_value k v => [(k, optStrNode v)]
  | .write_enum_value k v => [(k, optEnumNode v)]
  | .write_object_value k v => [(k, optObjNode v)]
  | .write_additional_data_value m => m

/-- Modelled from the spec: the whole encode pass of a writer, the entries of
its recorded writes in order. -/
def encodeWriter (evs : List WriteEvent) : List (String × JValue) :=
  evs.flatMap writeEventEntries

/-- ItemBody.encode: serialize into a fresh writer and take the entries the
writer emits. -/
def ItemBody.encode (x : ItemBody) : List (String × JValue) :=
  match x.serialize (some []) with
  | .ok evs => encodeWriter evs
  | .error _ => []

/-- Modelled from the spec: the variant-agnostic decoding loop of section
4.2 for ItemBody — for each payload field in order, invoke the matching
deserializer callback when the field map knows the name, else store the raw
value into additional_data under its key. The loop lives in the ParseNode
implementations, which are not under src. -/
def ItemBody.applyEntries (x : ItemBody) : List (String × JValue) → ItemBody
  | [] => x
  | (k, v) :: rest =>
    match List.lookup k ItemBody.get_field_deserializers with
    | some cb => ItemBody.applyEntries (cb x v) rest
    | none => ItemBody.applyEntries { x with additional_data := setAdditional x.additional_data k v } rest

/-- ItemBody.decode: construct through the factory, then run the field loop
over the payload entries. -/
def ItemBody.decode (entries : List (String × JValue)) : ItemBody :=
  match ItemBody.create_from_discriminator_value (some (.jobj entries)) with
  | .ok x => x.applyEntries entries
  | .error _ => {}

/-- ErrorDetails.encode: serialize into a fresh writer and take the entries. -/
def ErrorDetails.encode (x : ErrorDetails) : List (String × JValue) :=
  match x.serialize (some []) with
  | .ok evs => encodeWriter evs
  | .error _ => []

/-- Modelled from the spec: the decoding loop of section 4.2 for
ErrorDetails, as for ItemBody. -/
def ErrorDetails.applyEntries (x : ErrorDetails) : List (String × JValue) → ErrorDetails
  | [] => x
  | (k, v) :: rest =>
    match List.lookup k ErrorDetails.get_field_deserializers with
    | some cb => ErrorDetails.applyEntries (cb x v) rest
    | none => ErrorDetails.applyEntries { x with additional_data := setAdditional x.additional_data k v } rest

/-- ErrorDetails.decode: construct through the factory, then run the field
loop over the payload entries. -/
def ErrorDetails.decode (entries : List (String × JValue)) : ErrorDetails :=
  match ErrorDetails.create_from_discriminator_value (some (.jobj entries)) with
  | .ok x => x.applyEntries entries
  | .error _ => {}


/-! ## Lemmas about the duration grammar -/

theorem takeDigits_append (cs : List Char) : (takeDigits cs).1 ++ (takeDigits cs).2 = cs := by
  induction cs with
  | nil => rfl
  | cons c cs ih =>
    by_cases h : c.isDigit
    · simp [takeDigits, h, ih]
    · simp [takeDigits, h]

theorem takeDigits_digits (cs : List Char) : ∀ c ∈ (takeDigits cs).1, c.isDigit = true := by
  induction cs with
  | nil => simp [takeDigits]
  | cons c cs ih =>
    intro x hx
    by_cases h : c.isDigit
    · simp only [takeDigits, if_pos h] at hx
      rcases List.mem_cons.mp hx with rfl | hx
      · exact h
      · exact ih x hx
    · simp [takeDigits, h] at hx

theorem takeDigits_of_prefix (ds : List Char) (c0 : Char) (rest : List Char)
    (hdig : ∀ c ∈ ds, c.isDigit = true) (hc0 : c0.isDigit = false) :
    takeDigits (ds ++ c0 :: rest) = (ds, c0 :: rest) := by
  induction ds with
  | nil => simp [takeDigits, hc0]
  | cons d ds ih =>
    have hd : d.isDigit = true := hdig d (List.mem_cons_self _ _)
    simp [takeDigits, hd, ih (fun c hc => hdig c (List.mem_cons_of_mem _ hc))]

theorem durGroup_nil (u : Char) : durGroup u [] = (none, []) := by
  simp [durGroup, takeDigits]

theorem durGroup_matched (u : Char) (ds rest : List Char) (hne : ds ≠ [])
    (hdig : ∀ c ∈ ds, c.isDigit = true) (hu : u.isDigit = false) :
    durGroup u (ds ++ u :: rest) = (some ds, rest) := by
  simp [durGroup, takeDigits_of_prefix ds u rest hdig hu, hne]

theorem durGroup_mem (u : Char) (cs : List Char) (c : Char) (hc : c ∈ cs) :
    c.isDigit = true ∨ c = u ∨ c ∈ (durGroup u cs).2 := by
  by_cases h : (takeDigits cs).1 ≠ [] ∧ (takeDigits cs).2.head? = some u
  · obtain ⟨h1, h2⟩ := h
    have happ := takeDigits_append cs
    have htl : (takeDigits cs).2 = u :: (takeDigits cs).2.tail := by
      cases hr : (takeDigits cs).2 with
      | nil => rw [hr] at h2; simp at h2
      | cons a l =>
        rw [hr] at h2
        simp only [List.head?] at h2
        injection h2 with h2
        subst h2
        rfl
    simp only [durGroup]
    rw [if_pos ⟨h1, h2⟩]
    rw [← happ] at hc
    rcases List.mem_append.mp hc with hmem | hmem
    · exact Or.inl (takeDigits_digits cs c hmem)
    · rw [htl] at hmem
      rcases List.mem_cons.mp hmem with rfl | hmem
      · exact Or.inr (Or.inl rfl)
      · exact Or.inr (Or.inr hmem)
  · simp only [durGroup]
    rw [if_neg h]
    exact Or.inr (Or.inr hc)

theorem durTimeTail_end (cs : List Char) (hms : Option (List Char) × Option (List Char) × Option (List Char))
    (h : durTimeTail cs = some hms) :
    (durGroup 'S' (durGroup 'M' (durGroup 'H' cs).2).2).2 = [] := by
  by_contra hne
  simp only [durTimeTail] at h
  rw [if_neg hne] at h
  exact Option.noConfusion h

theorem matchDuration_allowed (cs : List Char) (g : DurGroups)
    (h : matchDuration cs = some g) :
    ∀ c ∈ cs, c.isDigit = true ∨ c ∈ ['P', 'Y', 'M', 'W', 'D', 'T', 'H', 'S'] := by
  intro c hc
  cases cs with
  | nil => simp [matchDuration] at h
  | cons p r0 =>
    by_cases hp : p = 'P'
    case neg => simp [matchDuration, hp] at h
    subst hp
    simp only [matchDuration, if_pos, reduceIte] at h
    rcases List.mem_cons.mp hc with rfl | hc0
    · right; simp
    rcases durGroup_mem 'Y' r0 c hc0 with hd | rfl | h1
    · exact Or.inl hd
    · right; simp
    rcases durGroup_mem 'M' (durGroup 'Y' r0).2 c h1 with hd | rfl | h2
    · exact Or.inl hd
    · right; simp
    rcases durGroup_mem 'W' (durGroup 'M' (durGroup 'Y' r0).2).2 c h2 with hd | rfl | h3
    · exact Or.inl hd
    · right; simp
    rcases durGroup_mem 'D' (durGroup 'W' (durGroup 'M' (durGroup 'Y' r0).2).2).2 c h3 with hd | rfl | h4
    · exact Or.inl hd
    · right; simp
    cases hr4 : (durGroup 'D' (durGroup 'W' (durGroup 'M' (durGroup 'Y' r0).2).2).2).2 with
    | nil => rw [hr4] at h4; exact absurd h4 (List.not_mem_nil c)
    | cons t r5 =>
      rw [hr4] at h h4
      by_cases ht : t = 'T'
      case neg => simp [durDateTail, ht] at h
      subst ht
      simp only [durDateTail, if_pos, reduceIte] at h
      rcases List.mem_cons.mp h4 with rfl | hc5
      · right; simp
      cases htt : durTimeTail r5 with
      | none => rw [htt] at h; exact Option.noConfusion h
      | some hms =>
        have hend := durTimeTail_end r5 hms htt
        rcases durGroup_mem 'H' r5 c hc5 with hd | rfl | h6
        · exact Or.inl hd
        · right; simp
        rcases durGroup_mem 'M' (durGroup 'H' r5).2 c h6 with hd | rfl | h7
        · exact Or.inl hd
        · right; simp
        rcases durGroup_mem 'S' (durGroup 'M' (durGroup 'H' r5).2).2 c h7 with hd | rfl | h8
        · exact Or.inl hd
        · right; simp
        rw [hend] at h8
        exact absurd h8 (List.not_mem_nil c)

theorem timedeltaNew_groups_type_error (g : DurGroups) :
    timedeltaNew (timedeltaKwargsOfGroups g)
      = .error (.typeError "years is an invalid keyword argument for __new__()") := rfl

/-! ## Claims about the duration parser -/

/-- C1: the spec's literal table says parse_duration returns 4 years for
"P4Y", 1 hour 30 minutes for "PT1H30M", 1 week for "P1W" and the all-zero
elapsed time for "P". The grammar does accept each input with exactly those
capture groups, but the source then calls datetime.timedelta with the
keyword arguments years= and months=, which the timedelta constructor does
not accept, so every one of the four inputs raises TypeError instead of
returning the stated value: the code contradicts its own docstring (which
promises a parsed timedelta and declares years and months supported). -/
theorem parse_duration_literal_table_raises_type_error :
    iso8601DurationFullmatch "P4Y" = some ⟨some ['4'], none, none, none, none, none, none⟩
    ∧ iso8601DurationFullmatch "PT1H30M" = some ⟨none, none, none, none, some ['1'], some ['3', '0'], none⟩
    ∧ iso8601DurationFullmatch "P1W" = some ⟨none, none, some ['1'], none, none, none, none⟩
    ∧ iso8601DurationFullmatch "P" = some ⟨none, none, none, none, none, none, none⟩
    ∧ parseTimeDeltaFromIsoFormat "P4Y" = .error (.typeError "years is an invalid keyword argument for __new__()")
    ∧ parseTimeDeltaFromIsoFormat "PT1H30M" = .error (.typeError "years is an invalid keyword argument for __new__()")
    ∧ parseTimeDeltaFromIsoFormat "P1W" = .error (.typeError "years is an invalid keyword argument for __new__()")
    ∧ parseTimeDeltaFromIsoFormat "P" = .error (.typeError "years is an invalid keyword argument for __new__()") :=
  ⟨by decide, by decide, by decide, by decide, rfl, rfl, rfl, rfl⟩

/-- C2: parse_duration raises the format error (the ValueError of the
source) exactly when the input does not fully match the anchored duration
grammar; in particular "1Y" (no leading P), "P1M1Y" (groups out of the fixed
order) and "P1DX" (a partial match with trailing text) each raise it. Inputs
that do fully match never raise the format error (the failure they do hit is
the TypeError of C1, a different error). -/
theorem parse_duration_format_error_iff_not_fullmatch :
    (∀ s : String,
      (∃ m, parseTimeDeltaFromIsoFormat s = .error (.valueError m))
        ↔ iso8601DurationFullmatch s = none)
    ∧ parseTimeDeltaFromIsoFormat "1Y" = .error (.valueError "Invalid ISO 8601 duration string: 1Y")
    ∧ parseTimeDeltaFromIsoFormat "P1M1Y" = .error (.valueError "Invalid ISO 8601 duration string: P1M1Y")
    ∧ parseTimeDeltaFromIsoFormat "P1DX" = .error (.valueError "Invalid ISO 8601 duration string: P1DX") := by
  refine ⟨fun s => ⟨fun hex => ?_,
    fun hn => ⟨"Invalid ISO 8601 duration string: " ++ s,
      by simp [parseTimeDeltaFromIsoFormat, hn]⟩⟩, rfl, rfl, rfl⟩
  obtain ⟨m, hm⟩ := hex
  cases hfm : iso8601DurationFullmatch s with
  | none => rfl
  | some g =>
    simp only [parseTimeDeltaFromIsoFormat, hfm, timedeltaNew_groups_type_error] at hm
    exact absurd hm (by simp)

/-- C7: every input in the extended form P-date-T-time carries a date or
time separator after the P, and the grammar admits no character beyond
digits and the unit letters, so any input containing a hyphen-minus or a
colon fails the fullmatch and parse_duration raises the format error rather
than approximating the value. -/
theorem parse_duration_rejects_extended_date_time_form (s : String)
    (h : '-' ∈ s.data ∨ ':' ∈ s.data) :
    parseTimeDeltaFromIsoFormat s
      = .error (.valueError ("Invalid ISO 8601 duration string: " ++ s)) := by
  have hnone : iso8601DurationFullmatch s = none := by
    cases hfm : iso8601DurationFullmatch s with
    | none => rfl
    | some g =>
      have hall := matchDuration_allowed s.data g hfm
      rcases h with hbad | hbad
      · rcases hall '-' hbad with hd | hmem
        · exact absurd hd (by decide)
        · exact absurd hmem (by decide)
      · rcases hall ':' hbad with hd | hmem
        · exact absurd hd (by decide)
        · exact absurd hmem (by decide)
  simp [parseTimeDeltaFromIsoFormat, hnone]

/-- C7 witness: the calendar-date/time-of-day combination
"P2024-02-03T04:05:06" raises the format error. -/
theorem parse_duration_rejects_extended_witness :
    parseTimeDeltaFromIsoFormat "P2024-02-03T04:05:06"
      = .error (.valueError ("Invalid ISO 8601 duration string: " ++ "P2024-02-03T04:05:06")) :=
  parse_duration_rejects_extended_date_time_form "P2024-02-03T04:05:06" (Or.inl (by decide))

theorem matchDuration_digitsY (ds : List Char) (hne : ds ≠ [])
    (hdig : ∀ c ∈ ds, c.isDigit = true) :
    matchDuration ('P' :: (ds ++ ['Y'])) = some ⟨some ds, none, none, none, none, none, none⟩ := by
  have hY : durGroup 'Y' (ds ++ 'Y' :: []) = (some ds, []) :=
    durGroup_matched 'Y' ds [] hne hdig (by decide)
  simp [matchDuration, hY, durGroup_nil, durDateTail]

/-- C8: every numeric group is captured as a digit string denoting a
non-negative integer with no width limit and leading zeros permitted (the
first conjunct holds for an arbitrary non-empty digit run in the years
position); an absent group is None and int(None or 0) contributes 0 when the
keyword arguments of the result are built; and fractional or negative values
(a decimal point or a minus sign) do not match the grammar and are
rejected. -/
theorem parse_duration_groups_optional_integer_capture :
    (∀ ds : List Char, ds ≠ [] → (∀ c ∈ ds, c.isDigit = true) →
      iso8601DurationFullmatch (String.mk ('P' :: (ds ++ ['Y'])))
        = some ⟨some ds, none, none, none, none, none, none⟩
      ∧ intOrZero (some ds) = intOfDigits ds)
    ∧ intOrZero none = 0
    ∧ timedeltaKwargsOfGroups ⟨none, none, none, none, none, none, none⟩
        = [("years", 0), ("months", 0), ("weeks", 0), ("days", 0),
           ("hours", 0), ("minutes", 0), ("seconds", 0)]
    ∧ iso8601DurationFullmatch "P" = some ⟨none, none, none, none, none, none, none⟩
    ∧ iso8601DurationFullmatch "PT1.5S" = none
    ∧ iso8601DurationFullmatch "P-1D" = none := by
  refine ⟨fun ds hne hdig => ⟨matchDuration_digitsY ds hne hdig, rfl⟩,
    rfl, by decide, by decide, by decide, by decide⟩

/-- C8 witness: the years group captures the leading-zero digit run 007 of
"P007Y" whole, and converts to the integer 7. -/
theorem parse_duration_groups_witness :
    iso8601DurationFullmatch (String.mk ('P' :: (['0', '0', '7'] ++ ['Y'])))
      = some ⟨some ['0', '0', '7'], none, none, none, none, none, none⟩
    ∧ intOrZero (some ['0', '0', '7']) = 7 := by
  have h := parse_duration_groups_optional_integer_capture.1 ['0', '0', '7'] (by decide) (by decide)
  exact ⟨h.1, by rw [h.2]; decide⟩

/-! ## Claims about the model protocol -/

/-- C4: for every Model Variant under src, the factory raises the
null-argument TypeError on an absent parse node, and serialize raises the
null-argument TypeError on an absent writer, whatever the instance. -/
theorem null_guards_raise_null_argument_error :
    ItemBody.create_from_discriminator_value none = .error (.typeError "parse_node cannot be null.")
    ∧ ErrorDetails.create_from_discriminator_value none = .error (.typeError "parse_node cannot be null.")
    ∧ ODataError.create_from_discriminator_value none = .error (.typeError "parse_node cannot be null.")
    ∧ (∀ x : ItemBody, x.serialize none = .error (.typeError "writer cannot be null."))
    ∧ (∀ x : ErrorDetails, x.serialize none = .error (.typeError "writer cannot be null."))
    ∧ (∀ x : ODataError, x.serialize none = .error (.typeError "writer cannot be null.")) :=
  ⟨rfl, rfl, rfl, fun _ => rfl, fun _ => rfl, fun _ => rfl⟩

/-- C5: for every instance and every non-null writer, serialize performs
exactly the declared-field writes, each through the writer primitive
matching the field's semantic type (string, enum, nested object), strictly
before a single final write of the whole additional_data mapping verbatim. -/
theorem serialize_declared_fields_before_additional_data :
    (∀ (x : ItemBody) (w : List WriteEvent),
      x.serialize (some w)
        = .ok (w ++ [.write_str_value "content" x.content,
                     .write_enum_value "contentType" x.content_type,
                     .write_additional_data_value x.additional_data]))
    ∧ (∀ (x : ErrorDetails) (w : List WriteEvent),
      x.serialize (some w)
        = .ok (w ++ [.write_str_value "code" x.code,
                     .write_str_value "message" x.message,
                     .write_str_value "target" x.target,
                     .write_additional_data_value x.additional_data]))
    ∧ (∀ (x : ODataError) (w : List WriteEvent),
      x.serialize (some w)
        = .ok (w ++ [.write_object_value "error" x.error,
                     .write_additional_data_value x.additional_data])) :=
  ⟨fun _ _ => rfl, fun _ _ => rfl, fun _ _ => rfl⟩

/-- C6: for every non-polymorphic Model Variant and every non-null node, the
factory returns a fresh zero-valued instance — all declared fields at their
defaults and empty additional_data — and reads nothing from the node (the
result is the same whatever the node holds). -/
theorem create_from_discriminator_returns_fresh_instance :
    (∀ n : JValue, ItemBody.create_from_discriminator_value (some n) = .ok ⟨[], none, none⟩)
    ∧ (∀ n : JValue, ErrorDetails.create_from_discriminator_value (some n) = .ok ⟨[], none, none, none⟩)
    ∧ (∀ n : JValue, ODataError.create_from_discriminator_value (some n) = .ok ⟨[], none⟩) :=
  ⟨fun _ => rfl, fun _ => rfl, fun _ => rfl⟩

/-- C10: primary_message never returns None: it is the nested error's
message when the error field and its message are both present, and the empty
string when the error is absent or its message is absent. -/
theorem primary_message_never_none (x : ODataError) :
    x.primary_message ≠ none
    ∧ (x.error = none → x.primary_message = some "")
    ∧ (∀ e : MainError, x.error = some e → e.message = none → x.primary_message = some "")
    ∧ (∀ (e : MainError) (m : String), x.error = some e → e.message = some m →
        x.primary_message = some m) := by
  refine ⟨?_, fun h => by simp [ODataError.primary_message, h],
    fun e he hm => by simp [ODataError.primary_message, he, hm],
    fun e m he hm => by simp [ODataError.primary_message, he, hm]⟩
  rcases x with ⟨ad, err⟩
  cases err with
  | none => simp [ODataError.primary_message]
  | some e =>
    cases he : e.message with
    | none => simp [ODataError.primary_message, he]
    | some m => simp [ODataError.primary_message, he]

/-- C10 witness: on a concrete envelope whose nested error carries the
message boom, primary_message returns it; with the error absent it returns
the empty string. -/
theorem primary_message_witness :
    (ODataError.mk [] (some (MainError.mk [] (some "boom")))).primary_message = some "boom"
    ∧ (ODataError.mk [] none).primary_message = some "" :=
  ⟨(primary_message_never_none (ODataError.mk [] (some (MainError.mk [] (some "boom"))))).2.2.2
      (MainError.mk [] (some "boom")) "boom" rfl rfl,
   (primary_message_never_none (ODataError.mk [] none)).2.1 rfl⟩

theorem get_str_value_optStrNode (v : Option String) : (optStrNode v).get_str_value = v := by
  cases v <;> rfl

theorem get_enum_value_optEnumNode (v : Option BodyType) : (optEnumNode v).get_enum_value = v := by
  cases v with
  | none => rfl
  | some b => cases b <;> rfl

theorem foldl_setAdditional_fresh (m : List (String × JValue)) :
    ∀ acc : List (String × JValue), (m.map Prod.fst).Nodup →
    (∀ kv ∈ m, ∀ kv2 ∈ acc, kv.1 ≠ kv2.1) →
    m.foldl (fun a kv => setAdditional a kv.1 kv.2) acc = acc ++ m := by
  induction m with
  | nil => intro acc _ _; simp
  | cons kv rest ih =>
    intro acc hnodup hfresh
    rw [List.map_cons] at hnodup
    obtain ⟨hhead, htail⟩ := List.nodup_cons.mp hnodup
    have hout : acc.any (fun kv2 => kv2.1 == kv.1) = false := by
      rw [List.any_eq_false]
      intro kv2 hkv2
      have hne := hfresh kv (List.mem_cons_self _ _) kv2 hkv2
      simp only [beq_iff_eq]
      exact fun he => hne he.symm
    have hstep : setAdditional acc kv.1 kv.2 = acc ++ [kv] := by
      simp [setAdditional, hout]
    rw [List.foldl_cons, hstep, ih (acc ++ [kv]) htail]
    · simp
    · intro kv2 hkv2 kv3 hkv3
      rcases List.mem_append.mp hkv3 with h3 | h3
      · exact hfresh kv2 (List.mem_cons_of_mem _ hkv2) kv3 h3
      · have h3 := List.mem_singleton.mp h3
        subst h3
        intro he
        exact hhead (he ▸ List.mem_map_of_mem Prod.fst hkv2)

theorem itemBody_lookup_fields_none (k : String) (h1 : k ≠ "content") (h2 : k ≠ "contentType") :
    List.lookup k ItemBody.get_field_deserializers = none := by
  have e1 : (k == "content") = false := by simp [h1]
  have e2 : (k == "contentType") = false := by simp [h2]
  simp [ItemBody.get_field_deserializers, List.lookup, e1, e2]

theorem itemBody_applyEntries_unknown (m : List (String × JValue)) :
    ∀ x : ItemBody, (∀ kv ∈ m, kv.1 ≠ "content" ∧ kv.1 ≠ "contentType") →
    x.applyEntries m
      = { x with additional_data := m.foldl (fun a kv => setAdditional a kv.1 kv.2) x.additional_data } := by
  induction m with
  | nil => intro x _; rfl
  | cons kv rest ih =>
    intro x h
    rcases kv with ⟨k, v⟩
    obtain ⟨h1, h2⟩ := h (k, v) (List.mem_cons_self _ _)
    simp only [ItemBody.applyEntries, itemBody_lookup_fields_none k h1 h2, List.foldl_cons]
    exact ih _ (fun kv2 hkv2 => h kv2 (List.mem_cons_of_mem _ hkv2))

theorem errorDetails_lookup_fields_none (k : String)
    (h1 : k ≠ "code") (h2 : k ≠ "message") (h3 : k ≠ "target") :
    List.lookup k ErrorDetails.get_field_deserializers = none := by
  have e1 : (k == "code") = false := by simp [h1]
  have e2 : (k == "message") = false := by simp [h2]
  have e3 : (k == "target") = false := by simp [h3]
  simp [ErrorDetails.get_field_deserializers, List.lookup, e1, e2, e3]

theorem errorDetails_applyEntries_unknown (m : List (String × JValue)) :
    ∀ x : ErrorDetails, (∀ kv ∈ m, kv.1 ≠ "code" ∧ kv.1 ≠ "message" ∧ kv.1 ≠ "target") →
    x.applyEntries m
      = { x with additional_data := m.foldl (fun a kv => setAdditional a kv.1 kv.2) x.additional_data } := by
  induction m with
  | nil => intro x _; rfl
  | cons kv rest ih =>
    intro x h
    rcases kv with ⟨k, v⟩
    obtain ⟨h1, h2, h3⟩ := h (k, v) (List.mem_cons_self _ _)
    simp only [ErrorDetails.applyEntries, errorDetails_lookup_fields_none k h1 h2 h3, List.foldl_cons]
    exact ih _ (fun kv2 hkv2 => h kv2 (List.mem_cons_of_mem _ hkv2))

/-- C3: decode after encode is the identity on populated instances — for
both cited variants, with both declared fields and the additional_data
mapping reproduced exactly, known and unknown fields alike. The two
hypotheses are the representation invariants of the data model (section 3):
the additional_data keys are unique (a Python dict) and disjoint from the
declared field names. -/
theorem decode_encode_roundtrip :
    (∀ x : ItemBody, (x.additional_data.map Prod.fst).Nodup →
      (∀ kv ∈ x.additional_data, kv.1 ≠ "content" ∧ kv.1 ≠ "contentType") →
      ItemBody.decode (ItemBody.encode x) = x)
    ∧ (∀ x : ErrorDetails, (x.additional_data.map Prod.fst).Nodup →
      (∀ kv ∈ x.additional_data, kv.1 ≠ "code" ∧ kv.1 ≠ "message" ∧ kv.1 ≠ "target") →
      ErrorDetails.decode (ErrorDetails.encode x) = x) := by
  constructor
  · rintro ⟨ad, c, ct⟩ hnodup hdisj
    have henc : ItemBody.encode ⟨ad, c, ct⟩
        = ("content", optStrNode c) :: ("contentType", optEnumNode ct) :: ad := by
      simp [ItemBody.encode, ItemBody.serialize, encodeWriter, writeEventEntries]
    rw [henc]
    have hsteps : ItemBody.decode (("content", optStrNode c) :: ("contentType", optEnumNode ct) :: ad)
        = ItemBody.applyEntries ⟨[], c, ct⟩ ad := by
      simp [ItemBody.decode, ItemBody.create_from_discriminator_value, ItemBody.applyEntries,
        ItemBody.get_field_deserializers, List.lookup,
        get_str_value_optStrNode, get_enum_value_optEnumNode]
    rw [hsteps, itemBody_applyEntries_unknown ad _ hdisj,
      foldl_setAdditional_fresh ad [] hnodup (fun kv _ kv2 h2 => absurd h2 (List.not_mem_nil _))]
    simp
  · rintro ⟨ad, cd, msg, tg⟩ hnodup hdisj
    have henc : ErrorDetails.encode ⟨ad, cd, msg, tg⟩
        = ("code", optStrNode cd) :: ("message", optStrNode msg) :: ("target", optStrNode tg) :: ad := by
      simp [ErrorDetails.encode, ErrorDetails.serialize, encodeWriter, writeEventEntries]
    rw [henc]
    have hsteps : ErrorDetails.decode
          (("code", optStrNode cd) :: ("message", optStrNode msg) :: ("target", optStrNode tg) :: ad)
        = ErrorDetails.applyEntries ⟨[], cd, msg, tg⟩ ad := by
      simp [ErrorDetails.decode, ErrorDetails.create_from_discriminator_value, ErrorDetails.applyEntries,
        ErrorDetails.get_field_deserializers, List.lookup, get_str_value_optStrNode]
    rw [hsteps, errorDetails_applyEntries_unknown ad _ hdisj,
      foldl_setAdditional_fresh ad [] hnodup (fun kv _ kv2 h2 => absurd h2 (List.not_mem_nil _))]
    simp

/-- C3 witness: the round trip reproduces a concrete populated ItemBody (an
unknown field extra kept in additional_data, content and contentType set)
and a concrete populated ErrorDetails exactly. -/
theorem decode_encode_roundtrip_witness :
    ItemBody.decode (ItemBody.encode (ItemBody.mk [("extra", JValue.jnum 5)] (some "hello") (some BodyType.html)))
      = ItemBody.mk [("extra", JValue.jnum 5)] (some "hello") (some BodyType.html)
    ∧ ErrorDetails.decode (ErrorDetails.encode (ErrorDetails.mk [("unknownField", JValue.jstr "u")] (some "c1") none (some "t1")))
      = ErrorDetails.mk [("unknownField", JValue.jstr "u")] (some "c1") none (some "t1") :=
  ⟨decode_encode_roundtrip.1 _ (by decide) (by decide),
   decode_encode_roundtrip.2 _ (by decide) (by decide)⟩

/-- C9: the field-deserializer map of each cited variant maps exactly the
payload field names the variant understands, and the callback at each
position assigns the typed value extracted from the node to exactly the one
attribute matching its field name, leaving every other declared field and
the additional_data mapping of the instance unchanged. -/
theorem field_deserializers_assign_exactly_their_field :
    ItemBody.get_field_deserializers.map Prod.fst = ["content", "contentType"]
    ∧ ErrorDetails.get_field_deserializers.map Prod.fst = ["code", "message", "target"]
    ∧ (∀ (i : Fin ItemBody.get_field_deserializers.length) (self : ItemBody) (n : JValue),
        ((ItemBody.get_field_deserializers.get i).2 self n).additional_data = self.additional_data
        ∧ ((ItemBody.get_field_deserializers.get i).1 = "content" →
            ((ItemBody.get_field_deserializers.get i).2 self n).content = n.get_str_value
            ∧ ((ItemBody.get_field_deserializers.get i).2 self n).content_type = self.content_type)
        ∧ ((ItemBody.get_field_deserializers.get i).1 = "contentType" →
            ((ItemBody.get_field_deserializers.get i).2 self n).content_type = n.get_enum_value
            ∧ ((ItemBody.get_field_deserializers.get i).2 self n).content = self.content))
    ∧ (∀ (i : Fin ErrorDetails.get_field_deserializers.length) (self : ErrorDetails) (n : JValue),
        ((ErrorDetails.get_field_deserializers.get i).2 self n).additional_data = self.additional_data
        ∧ ((ErrorDetails.get_field_deserializers.get i).1 = "code" →
            ((ErrorDetails.get_field_deserializers.get i).2 self n).code = n.get_str_value
            ∧ ((ErrorDetails.get_field_deserializers.get i).2 self n).message = self.message
            ∧ ((ErrorDetails.get_field_deserializers.get i).2 self n).target = self.target)
        ∧ ((ErrorDetails.get_field_deserializers.get i).1 = "message" →
            ((ErrorDetails.get_field_deserializers.get i).2 self n).message = n.get_str_value
            ∧ ((ErrorDetails.get_field_deserializers.get i).2 self n).code = self.code
            ∧ ((ErrorDetails.get_field_deserializers.get i).2 self n).target = self.target)
        ∧ ((ErrorDetails.get_field_deserializers.get i).1 = "target" →
            ((ErrorDetails.get_field_deserializers.get i).2 self n).target = n.get_str_value
            ∧ ((ErrorDetails.get_field_deserializers.get i).2 self n).code = self.code
            ∧ ((ErrorDetails.get_field_deserializers.get i).2 self n).message = self.message)) := by
  refine ⟨rfl, rfl, fun i self n => ?_, fun i self n => ?_⟩
  · fin_cases i <;> simp [ItemBody.get_field_deserializers]
  · fin_cases i <;> simp [ErrorDetails.get_field_deserializers]

/-- C9 witness: the content callback of ItemBody, applied to a concrete
instance and a string node, sets content to the node's string and leaves
content_type and additional_data as they were. -/
theorem field_deserializers_frame_witness :
    ((ItemBody.get_field_deserializers.get ⟨0, by decide⟩).2
        (ItemBody.mk [("a", JValue.jnum 1)] none (some BodyType.text)) (JValue.jstr "hi")).content = some "hi"
    ∧ ((ItemBody.get_field_deserializers.get ⟨0, by decide⟩).2
        (ItemBody.mk [("a", JValue.jnum 1)] none (some BodyType.text)) (JValue.jstr "hi")).content_type = some BodyType.text
    ∧ ((ItemBody.get_field_deserializers.get ⟨0, by decide⟩).2
        (ItemBody.mk [("a", JValue.jnum 1)] none (some BodyType.text)) (JValue.jstr "hi")).additional_data = [("a", JValue.jnum 1)] := by
  have h := field_deserializers_assign_exactly_their_field.2.2.1 ⟨0, by decide⟩
    (ItemBody.mk [("a", JValue.jnum 1)] none (some BodyType.text)) (JValue.jstr "hi")
  exact ⟨(h.2.1 rfl).1, (h.2.1 rfl).2, h.1⟩
